import Mathlib

/-!
Verification development for the chunked Spider-prediction batch runner:

* `GenPred` embeds the chunk writer of
  `src/evaluation/generate_spider_predictions.py` (the `main` loop:
  per-question retry, per-chunk processing with hard stop, summary writing,
  chunk-range partitioning).
* `Predicting` embeds the checkpoint runner of `src/evaluation/Predicting.py`
  (`_load_tracking`, the reset branch of `main`, the bounded retry loop, and
  the agent orchestration `_run_agents`).
* `Combine` embeds `src/evaluation/combine_spider_chunks.py`
  (`_find_chunk_dirs` discovery and the merge/validation loop of `main`).

The external stage calls (LLM invocations) are abstracted as oracles mapping
attempt numbers to outcomes; everything downstream of those calls is
translated directly from the source.
-/

namespace GenPred

/-- One attempt of a question is an external call (`_run_one_question`):
`Except.error msg` models a raised exception caught by the retry loop,
`Except.ok sql` models a returned result whose `prediction_sql` is `sql`.
The oracle is indexed by the 1-based attempt number. -/
abbrev AttemptOracle := Nat → Except String String

/-- Outcome of the inner retry loop (`while attempt <= max_retries and not
success`) of `generate_spider_predictions.main` for one question. -/
structure QOutcome where
  success : Bool
  attemptsUsed : Nat
  sql : String
  lastError : String
deriving Repr, DecidableEq

/-- The retry loop of `generate_spider_predictions.main` (lines 710-746):
`attempt` starts at 0 and is incremented at the top of each iteration;
the loop runs while `attempt <= max_retries` and no success, so at most
`max_retries + 1` attempts are made; `last_error` keeps the latest message. -/
def runQuestionAux (oracle : AttemptOracle) :
    Nat → Nat → String → QOutcome
  | 0, attempt, lastError => ⟨false, attempt, "", lastError⟩
  | remaining + 1, attempt, lastError =>
    match oracle (attempt + 1) with
    | .ok sql => ⟨true, attempt + 1, sql, lastError⟩
    | .error e => runQuestionAux oracle remaining (attempt + 1) e

/-- Run one question with `max_retries` retries (so `max_retries + 1` attempts). -/
def runQuestion (maxRetries : Nat) (oracle : AttemptOracle) : QOutcome :=
  runQuestionAux oracle (maxRetries + 1) 0 ""

/-- A line of `predictions_debug.jsonl`: either a successful result row
(carrying `index` and `prediction_sql`) or the `fail_row` written on
exhausted retries (carrying `index` and the `error` message). -/
inductive DebugRow where
  | success (index : Nat) (sql : String)
  | failure (index : Nat) (error : String)
deriving Repr, DecidableEq

/-- The `index` field of a debug row. -/
def DebugRow.index : DebugRow → Nat
  | .success i _ => i
  | .failure i _ => i

/-- The `error` string of the `fail_row`:
`f"FAILED after {max_retries + 1} attempts: {last_error}"`. -/
def failMsg (maxRetries : Nat) (lastError : String) : String :=
  let attempts := maxRetries + 1
  s!"FAILED after {attempts} attempts: {lastError}"

/-- State accumulated by the per-chunk `for idx in range(chunk_start,
chunk_end)` loop: the lines of `predictions.txt`, the rows of
`predictions_debug.jsonl`, the success counter `chunk_ok`, and the
`stop_all` flag. -/
structure ChunkState where
  preds : List String
  debugRows : List DebugRow
  chunkOk : Nat
  stopAll : Bool
deriving Repr, DecidableEq

/-- The per-chunk loop of `generate_spider_predictions.main` (lines 708-759)
over the listed indices, with the per-question oracle indexed by question
index then attempt number.  On success the prediction line and debug row are
appended and `chunk_ok` incremented; on exhausted retries the `fail_row` is
appended, `stop_all` is set, and the loop breaks (no later index is touched). -/
def processChunkGo (maxRetries : Nat) (oracle : Nat → AttemptOracle) :
    List Nat → ChunkState
  | [] => ⟨[], [], 0, false⟩
  | idx :: rest =>
    let q := runQuestion maxRetries (oracle idx)
    if q.success then
      let st := processChunkGo maxRetries oracle rest
      ⟨q.sql :: st.preds, .success idx q.sql :: st.debugRows,
        st.chunkOk + 1, st.stopAll⟩
    else
      ⟨[], [.failure idx (failMsg maxRetries q.lastError)], 0, true⟩

/-- Process the chunk covering `[chunkStart, chunkEnd)` in ascending order. -/
def processChunk (maxRetries : Nat) (oracle : Nat → AttemptOracle)
    (chunkStart chunkEnd : Nat) : ChunkState :=
  processChunkGo maxRetries oracle (List.range' chunkStart (chunkEnd - chunkStart))

/-- The `summary.json` record written at the end of each chunk
(`generate_spider_predictions.main`, lines 772-784). -/
structure ChunkSummary where
  chunk_no : Nat
  range_start : Nat
  range_end_exclusive : Nat
  expected_questions : Nat
  successful_predictions : Nat
  integrity_ok : Bool
  stopped_due_to_error : Bool
  max_retries : Nat
  next_start_suggestion : Nat
deriving Repr, DecidableEq

/-- Summary construction (lines 761-784): `expected_count = chunk_end -
chunk_start`, `integrity_ok = predicted_count == expected_count`, and
`stop_all` is forced to `True` when the counts mismatch and no hard stop
already happened. -/
def mkSummary (chunkNo chunkStart chunkEnd maxRetries : Nat)
    (st : ChunkState) : ChunkSummary :=
  let expectedCount := chunkEnd - chunkStart
  let predictedCount := st.chunkOk
  let integrityOk := predictedCount == expectedCount
  let stopAll := if !integrityOk && !st.stopAll then true else st.stopAll
  { chunk_no := chunkNo
    range_start := chunkStart
    range_end_exclusive := chunkEnd
    expected_questions := expectedCount
    successful_predictions := predictedCount
    integrity_ok := integrityOk
    stopped_due_to_error := stopAll
    max_retries := maxRetries
    next_start_suggestion := chunkStart + predictedCount }

/-- The sequence of `(chunk_no, chunk_start, chunk_end)` triples generated by
the outer `while current < end_index` loop of `main` (lines 677-798):
`chunk_end = min(current + chunk_size, end_index)`, then `current =
chunk_end` and `chunk_no += 1`.  The `0 < chunkSize` guard mirrors the
`chunk_size must be > 0` check done before the loop. -/
def chunkRanges (chunkSize endIndex : Nat) (current chunkNo : Nat) :
    List (Nat × Nat × Nat) :=
  if h : current < endIndex ∧ 0 < chunkSize then
    (chunkNo, current, min (current + chunkSize) endIndex) ::
      chunkRanges chunkSize endIndex (min (current + chunkSize) endIndex) (chunkNo + 1)
  else
    []
termination_by endIndex - current
decreasing_by
  have h1 : current < min (current + chunkSize) endIndex :=
    lt_min (Nat.lt_add_of_pos_right h.2) h.1
  omega

/-- The body of the outer loop: process each chunk range in order, write its
summary, and return exit code 2 at the first chunk whose final `stop_all` is
set (lines 792-795), leaving all later ranges unprocessed; exit code 0 when
every chunk completes. -/
def runChunksGo (maxRetries : Nat) (oracle : Nat → AttemptOracle) :
    List (Nat × Nat × Nat) → List ChunkSummary × Nat
  | [] => ([], 0)
  | (chunkNo, chunkStart, chunkEnd) :: rest =>
    let st := processChunk maxRetries oracle chunkStart chunkEnd
    let summ := mkSummary chunkNo chunkStart chunkEnd maxRetries st
    if summ.stopped_due_to_error then
      ([summ], 2)
    else
      let next := runChunksGo maxRetries oracle rest
      (summ :: next.1, next.2)

/-- The whole chunked run over `[startIndex, endIndex)` with chunk numbers
starting at 1: the written summaries and the process exit code. -/
def runChunks (maxRetries chunkSize : Nat) (oracle : Nat → AttemptOracle)
    (startIndex endIndex : Nat) : List ChunkSummary × Nat :=
  runChunksGo maxRetries oracle (chunkRanges chunkSize endIndex startIndex 1)

end GenPred

namespace Predicting

/-- A record appended to the tracking object's `failures` list
(`Predicting.main`, lines 575-577): `{"index": idx, "error": last_error,
"stage": stage}`; `error` may be Python `None`, modelled as `none`. -/
structure FailureRec where
  index : Nat
  error : Option String
  stage : String
deriving Repr, DecidableEq

/-- The tracking (checkpoint) JSON object of `Predicting.py`; the wall-clock
`updated_at` field is not modelled. -/
structure Tracking where
  question_file : String
  last_index : Int
  last_attempted : Int
  status : String
  failures : List FailureRec
deriving Repr, DecidableEq

/-- Observable state of the tracking file on disk as `_load_tracking` sees
it: missing, present but zero-length, present but not parseable by
`json.load` (which raises), or valid. -/
inductive TrackingFile where
  | missing
  | empty
  | malformed
  | valid (t : Tracking)
deriving Repr, DecidableEq

/-- The fresh tracking object that `_load_tracking` builds when it does not
return the file's contents (lines 253-260). -/
def freshTracking (questionFile : String) : Tracking :=
  { question_file := questionFile
    last_index := -1
    last_attempted := -1
    status := "new"
    failures := [] }

/-- `_load_tracking` (lines 246-260): when the file exists and is non-empty
it tries `json.load` and returns the parsed object; a parse error is
swallowed (`except Exception: pass`) and control falls through to the fresh
object, exactly as in the missing and empty cases. -/
def loadTracking (file : TrackingFile) (questionFile : String) : Tracking :=
  match file with
  | .valid t => t
  | .missing => freshTracking questionFile
  | .empty => freshTracking questionFile
  | .malformed => freshTracking questionFile

/-- The explicit reset branch of `Predicting.main` (lines 469-474), taken
when the user declines to continue from the tracking file. -/
def resetTracking (t : Tracking) : Tracking :=
  { t with
    last_index := -1
    last_attempted := -1
    status := "new"
    failures := [] }

/-- Python truthiness of an optional string: `None` and `""` are falsy. -/
def truthy : Option String → Bool
  | none => false
  | some s => s ≠ ""

/-- Splitter behind `str.split()` with no separator: cut the character list
at whitespace runs, dropping empty pieces; `acc` holds the current word in
reverse. -/
def wsWordsAux : List Char → List Char → List (List Char)
  | [], acc => if acc.isEmpty then [] else [acc.reverse]
  | c :: rest, acc =>
    if c.isWhitespace then
      if acc.isEmpty then wsWordsAux rest []
      else acc.reverse :: wsWordsAux rest []
    else wsWordsAux rest (c :: acc)

/-- `' '.join(sql.split())` (line 535): split on whitespace runs, dropping
empty pieces, and re-join with single spaces. -/
def normalizeSql (s : String) : String :=
  String.intercalate " " ((wsWordsAux s.toList []).map List.asString)

/-- What one `_run_agents` call yields, as consulted by the outer loop of
`Predicting.main`: the stage tag (`"ok"`, `"b"` or `"c"`), the value of
`result.get("sql")` and of `result.get("error")` (both possibly absent). -/
structure AgentsOutcome where
  stage : String
  sql : Option String
  error : Option String
deriving Repr, DecidableEq

/-- Success test of line 531: `stage == "ok" and result.get("sql")`. -/
def isSuccess (o : AgentsOutcome) : Bool :=
  o.stage == "ok" && truthy o.sql

/-- Final state of one question's bounded retry loop. `sqlLine` is the
whitespace-normalized sql on success (success guarantees a truthy sql, so
the `getD ""` default is never produced); `waits` counts `time.sleep`
calls; `lastError`/`lastStage` come from the most recent failed attempt. -/
structure RetryOutcome where
  attemptsMade : Nat
  success : Bool
  sqlLine : String
  waits : Nat
  lastError : Option String
  lastStage : String
deriving Repr, DecidableEq

/-- The retry loop of `Predicting.main` (lines 516-578): `attempt` starts at
0 and is incremented at the top of each `while attempt < retry_count`
iteration; a stage-"ok" result with truthy sql breaks the loop; otherwise
`last_error` is taken from the result and, when attempts remain, the loop
waits `retry_wait_sec` once and retries; after the final failed attempt it
gives up without waiting. The oracle is indexed by the 1-based attempt
number. -/
def retryLoopGo (retryCount : Nat) (oracle : Nat → AgentsOutcome) :
    Nat → Nat → Option String → Nat → RetryOutcome
  | 0, attempt, lastError, waits => ⟨attempt, false, "", waits, lastError, ""⟩
  | fuel + 1, attempt, lastError, waits =>
    if attempt < retryCount then
      let out := oracle (attempt + 1)
      if isSuccess out then
        ⟨attempt + 1, true, normalizeSql (out.sql.getD ""), waits, lastError,
          out.stage⟩
      else
        if attempt + 1 < retryCount then
          retryLoopGo retryCount oracle fuel (attempt + 1) out.error (waits + 1)
        else
          ⟨attempt + 1, false, "", waits, out.error, out.stage⟩
    else
      ⟨attempt, false, "", waits, lastError, ""⟩

/-- Run one question's retry loop from its initial state.  The structural
fuel starts at `retryCount` and always dominates `retryCount - attempt`, so
the fuel-exhausted base case (which returns the same value the
`attempt < retry_count` guard produces on a false test) is never reached
while the loop guard still holds. -/
def retryLoop (retryCount : Nat) (oracle : Nat → AgentsOutcome) : RetryOutcome :=
  retryLoopGo retryCount oracle retryCount 0 none 0

/-- One entry of the question file: `item.get("question") or
item.get("query") or ""` and `item.get("db_id") or ""`, with `""` encoding
a missing/falsy value. -/
structure QItem where
  question : String
  db_id : String
deriving Repr, DecidableEq

/-- Observable state threaded through the question loop of
`Predicting.main`: `visited` instruments which indices the `for` loop
reached, `predLines` are the lines appended to the predictions TSV, and
`tracking` is the checkpoint object (saved to disk after every update). -/
structure RunState where
  visited : List Nat
  predLines : List String
  tracking : Tracking
deriving Repr, DecidableEq

/-- The body of `for idx in range(start_index, len(questions))` (lines
501-578): skip (recording `last_attempted`) when the question text or db id
is missing; otherwise run the retry loop; on success append
`f"{sql}\t{db}"` to the predictions file and advance
`last_index`/`last_attempted`/`status`; on exhausted retries record
`last_attempted` and append to `failures` (when `retry_count` is 0 the
`while` body never runs and nothing is recorded). -/
def predictStep (retryCount : Nat) (oracle : Nat → Nat → AgentsOutcome)
    (idx : Nat) (item : QItem) (st : RunState) : RunState :=
  if item.question = "" then
    { st with
      visited := st.visited ++ [idx]
      tracking := { st.tracking with last_attempted := (idx : Int) } }
  else if item.db_id = "" then
    { st with
      visited := st.visited ++ [idx]
      tracking := { st.tracking with last_attempted := (idx : Int) } }
  else
    let r := retryLoop retryCount (oracle idx)
    if r.success then
      let sql := r.sqlLine
      let db := item.db_id
      { visited := st.visited ++ [idx]
        predLines := st.predLines ++ [s!"{sql}\t{db}"]
        tracking := { st.tracking with
          last_index := (idx : Int)
          last_attempted := (idx : Int)
          status := "running" } }
    else
      if 0 < retryCount then
        { st with
          visited := st.visited ++ [idx]
          tracking := { st.tracking with
            last_attempted := (idx : Int)
            failures := st.tracking.failures ++
              [⟨idx, r.lastError, r.lastStage⟩] } }
      else
        { st with visited := st.visited ++ [idx] }

/-- Iterate `predictStep` over the listed indices in order; the loop never
breaks, so every index is visited. -/
def runLoopGo (retryCount : Nat) (oracle : Nat → Nat → AgentsOutcome)
    (questions : List QItem) : List Nat → RunState → RunState
  | [], st => st
  | idx :: rest, st =>
    runLoopGo retryCount oracle questions rest
      (predictStep retryCount oracle idx (questions.getD idx ⟨"", ""⟩) st)

/-- The whole question loop: `start_index = int(tracking.get("last_index",
-1)) + 1` (line 500) and the `for` loop runs over
`range(start_index, len(questions))`. -/
def runLoop (retryCount : Nat) (oracle : Nat → Nat → AgentsOutcome)
    (questions : List QItem) (tracking : Tracking) : RunState :=
  let startIndex := (tracking.last_index + 1).toNat
  runLoopGo retryCount oracle questions
    (List.range' startIndex (questions.length - startIndex))
    ⟨[], [], tracking⟩

/-- Agent A's result as consulted by `_run_agents` (lines 292-309): only
the `error` and `database` fields are read. -/
structure AResult where
  error : Option String
  database : Option String
deriving Repr, DecidableEq

/-- Agent B's result as consulted by `_run_agents` (lines 311-324). -/
structure BResult where
  error : Option String
  relevant_tables : List String
  reasons : String
deriving Repr, DecidableEq

/-- Agent C's result as consulted by `_run_agents` (lines 326-355). -/
structure CResult where
  error : Option String
  SQL : Option String
  reasons : String
deriving Repr, DecidableEq

/-- The value/stage-tag pair returned by `_run_agents`: the early return
after agent B's error (carrying only agents A and B), the return after
agent C's error (carrying A, B and C), or the success dictionary. -/
inductive AgentsResult where
  | errB (error : Option String) (agent_a : AResult) (agent_b : BResult)
  | errC (error : Option String) (agent_a : AResult) (agent_b : BResult)
      (agent_c : CResult)
  | ok (database : String) (tables : List String) (sql : Option String)
      (reasons : String) (agent_a : AResult) (agent_b : BResult)
      (agent_c : CResult)
deriving Repr, DecidableEq

/-- `selected_db` as computed in `_run_agents` (lines 303-309): an agent A
error (truthy `result_a.get("error")`) yields `None`; a falsy database
(`None` or `""`) falls back to `fallback_db`. -/
def chooseDb (a : AResult) (fallbackDb : String) : String :=
  let selected := if truthy a.error then none else a.database
  match selected with
  | some v => if v = "" then fallbackDb else v
  | none => fallbackDb

/-- `_run_agents` (lines 285-355): run agent A, fall back on its error or
empty answer, then agent B (early return with tag `"b"` on truthy error),
then agent C (early return with tag `"c"` on truthy error), else the
success dictionary with tag `"ok"`.  Agents B and C are oracles taking the
inputs the code passes them (the selected db, and for C also B's tables). -/
def runAgents (a : AResult) (b : String → BResult)
    (c : String → List String → CResult) (fallbackDb : String) :
    AgentsResult × String :=
  let selectedDb := chooseDb a fallbackDb
  let rb := b selectedDb
  if truthy rb.error then
    (.errB rb.error a rb, "b")
  else
    let rc := c selectedDb rb.relevant_tables
    if truthy rc.error then
      (.errC rc.error a rb rc, "c")
    else
      (.ok selectedDb rb.relevant_tables rc.SQL rc.reasons a rb rc, "ok")

end Predicting

namespace Combine

/-- A directory entry of `chunks_root` as seen by `_find_chunk_dirs`
(lines 63-77): its base name and whether it is a directory. -/
structure DirEntry where
  name : String
  isDir : Bool
deriving Repr, DecidableEq

/-- Fold of `int(...)` over a digit string, as Python's `int` parses the
group captured by `\d+` (leading zeros allowed). -/
def digitsToNat (cs : List Char) : Nat :=
  cs.foldl (fun acc c => acc * 10 + (c.toNat - 48)) 0

/-- The anchored pattern `^test_chuck_(\d+)$` (line 24): the name must be
`test_chuck_` followed by one or more digits; returns the captured number.
Matching works on the character list of the name. -/
def parseChunkName (name : String) : Option Nat :=
  let pre := "test_chuck_".toList
  let cs := name.toList
  if pre.isPrefixOf cs then
    let rest := cs.drop pre.length
    if rest.length > 0 && rest.all Char.isDigit then
      some (digitsToNat rest)
    else
      none
  else
    none

/-- `_find_chunk_dirs` (lines 63-77): keep the child directories whose name
matches the chunk pattern, pair each with its parsed chunk number, and sort
ascending by that numeric key (`sorted(..., key=lambda item: item[0])`,
a stable sort, modelled by a stable insertion sort on the key). -/
def findChunkDirs (entries : List DirEntry) : List (Nat × String) :=
  let chunkDirs := entries.filterMap (fun child =>
    if !child.isDir then
      none
    else
      match parseChunkName child.name with
      | some chunkNo => some (chunkNo, child.name)
      | none => none)
  List.insertionSort (fun a b => a.1 ≤ b.1) chunkDirs

/-- The fields of `summary.json` that `combine_spider_chunks.main` reads,
each `none` when the key is absent (the code then defaults them to `-1`,
`-1` and `False` respectively, lines 172-174). -/
structure SummaryJson where
  expected_questions : Option Int
  successful_predictions : Option Int
  integrity_ok : Option Bool
deriving Repr, DecidableEq

/-- The three artifacts of one chunk directory, each `none` when the file is
absent: the lines of `predictions.txt`, the lines of
`predictions_debug.jsonl`, and the parsed `summary.json`. -/
structure ChunkData where
  predictions : Option (List String)
  debug : Option (List String)
  summary : Option SummaryJson
deriving Repr, DecidableEq

/-- The per-chunk record appended to the report's `chunks` list
(lines 134-147, updated through the loop body). -/
structure ChunkReport where
  chunk_no : Nat
  has_predictions : Bool
  has_debug : Bool
  has_summary : Bool
  integrity_ok : Option Bool
  expected_questions : Option Int
  successful_predictions : Option Int
  prediction_lines : Nat
  debug_lines : Nat
  used : Bool
  warning : Option String
deriving Repr, DecidableEq

/-- The observable outcome of a completed (non-aborted) combine: the lines
written to `predictions_combined.txt` and
`predictions_debug_combined.jsonl`, and the report's `chunks` and
`warnings`. -/
structure CombineOut where
  mergedPred : List String
  mergedDebug : List String
  chunks : List ChunkReport
  warnings : List String
deriving Repr, DecidableEq

/-- The `missing` list of lines 149-153. -/
def missingList (data : ChunkData) : List String :=
  (if data.predictions.isNone then ["predictions.txt"] else []) ++
    (if data.debug.isNone then ["predictions_debug.jsonl"] else [])

/-- Warning text of line 155. -/
def missingWarning (chunkNo : Nat) (data : ChunkData) : String :=
  let joined := String.intercalate ", " (missingList data)
  s!"Chunk {chunkNo}: missing file(s): {joined}"

/-- Warning text of lines 182-185. -/
def mismatchWarning (chunkNo : Nat) (successfulPredictions : Int)
    (predLen : Nat) : String :=
  s!"Chunk {chunkNo}: summary successful_predictions={successfulPredictions} but predictions.txt has {predLen} lines"

/-- Warning text of line 193. -/
def integrityWarning (chunkNo : Nat) : String :=
  s!"Chunk {chunkNo}: summary integrity_ok=false"

/-- Warning text of line 201. -/
def summaryMissingWarning (chunkNo : Nat) : String :=
  s!"Chunk {chunkNo}: summary.json is missing"

/-- The `chunk_report` dictionary as initialized at the top of the loop
body (lines 134-147). -/
def reportBase (chunkNo : Nat) (data : ChunkData) : ChunkReport :=
  { chunk_no := chunkNo
    has_predictions := data.predictions.isSome
    has_debug := data.debug.isSome
    has_summary := data.summary.isSome
    integrity_ok := none
    expected_questions := none
    successful_predictions := none
    prediction_lines := 0
    debug_lines := 0
    used := false
    warning := none }

/-- The report of a chunk skipped for missing data files (lines 154-162):
never merged (`used` stays `false`). -/
def reportMissing (chunkNo : Nat) (data : ChunkData) : ChunkReport :=
  { reportBase chunkNo data with warning := some (missingWarning chunkNo data) }

/-- The report of a merged chunk whose `summary.json` is absent
(lines 200-211). -/
def reportNoSummary (chunkNo : Nat) (data : ChunkData) : ChunkReport :=
  { reportBase chunkNo data with
    prediction_lines := (data.predictions.getD []).length
    debug_lines := (data.debug.getD []).length
    used := true
    warning := some (summaryMissingWarning chunkNo) }

/-- The report of a merged chunk with a summary (lines 170-199 then
208-211): the summary fields are copied in with the code's defaults, and
`warning` holds the first triggered warning (`chunk_report["warning"]` is
only set when still `None`, so a mismatch warning wins over the integrity
warning). -/
def reportWithSummary (chunkNo : Nat) (data : ChunkData) (s : SummaryJson)
    (warning : Option String) : ChunkReport :=
  { chunk_no := chunkNo
    has_predictions := data.predictions.isSome
    has_debug := data.debug.isSome
    has_summary := data.summary.isSome
    integrity_ok := some (s.integrity_ok.getD false)
    expected_questions := some (s.expected_questions.getD (-1))
    successful_predictions := some (s.successful_predictions.getD (-1))
    prediction_lines := (data.predictions.getD []).length
    debug_lines := (data.debug.getD []).length
    used := true
    warning := warning }

/-- The per-chunk loop of `combine_spider_chunks.main` (lines 129-211),
processing the discovered chunks in order while accumulating the merged
prediction/debug lines, the per-chunk reports, and the warnings.  A strict
abort (`return 2`) is modelled as `Except.error 2`: it happens before any
combined output or report file is written, so no `CombineOut` exists in
that case.  In lenient mode the loop always runs to completion. -/
def combineGo (strict : Bool) : List (Nat × ChunkData) → List String →
    List String → List ChunkReport → List String → Except Nat CombineOut
  | [], mergedPred, mergedDebug, reports, warnings =>
    .ok ⟨mergedPred, mergedDebug, reports, warnings⟩
  | (chunkNo, data) :: rest, mergedPred, mergedDebug, reports, warnings =>
    if data.predictions.isNone || data.debug.isNone then
      if strict then
        .error 2
      else
        combineGo strict rest mergedPred mergedDebug
          (reports ++ [reportMissing chunkNo data])
          (warnings ++ [missingWarning chunkNo data])
    else
      let predictionLines := data.predictions.getD []
      let debugLines := data.debug.getD []
      match data.summary with
      | some summary =>
        let successfulPredictions := summary.successful_predictions.getD (-1)
        let integrityOk := summary.integrity_ok.getD false
        let mismatch := 0 ≤ successfulPredictions &&
          successfulPredictions != (predictionLines.length : Int)
        if mismatch then
          let warning := mismatchWarning chunkNo successfulPredictions
            predictionLines.length
          if strict then
            .error 2
          else
            if !integrityOk then
              combineGo strict rest (mergedPred ++ predictionLines)
                (mergedDebug ++ debugLines)
                (reports ++ [reportWithSummary chunkNo data summary
                  (some warning)])
                (warnings ++ [warning] ++ [integrityWarning chunkNo])
            else
              combineGo strict rest (mergedPred ++ predictionLines)
                (mergedDebug ++ debugLines)
                (reports ++ [reportWithSummary chunkNo data summary
                  (some warning)])
                (warnings ++ [warning])
        else
          if !integrityOk then
            if strict then
              .error 2
            else
              combineGo strict rest (mergedPred ++ predictionLines)
                (mergedDebug ++ debugLines)
                (reports ++ [reportWithSummary chunkNo data summary
                  (some (integrityWarning chunkNo))])
                (warnings ++ [integrityWarning chunkNo])
          else
            combineGo strict rest (mergedPred ++ predictionLines)
              (mergedDebug ++ debugLines)
              (reports ++ [reportWithSummary chunkNo data summary none])
              warnings
      | none =>
        if strict then
          .error 2
        else
          combineGo strict rest (mergedPred ++ predictionLines)
            (mergedDebug ++ debugLines)
            (reports ++ [reportNoSummary chunkNo data])
            (warnings ++ [summaryMissingWarning chunkNo])

/-- Combine the discovered chunks (already sorted by `findChunkDirs`)
starting from the empty accumulators. -/
def combine (strict : Bool) (chunks : List (Nat × ChunkData)) :
    Except Nat CombineOut :=
  combineGo strict chunks [] [] [] []

/-- Both data artifacts (`predictions.txt` and `predictions_debug.jsonl`)
are present; exactly these chunks get merged. -/
def hasData (d : ChunkData) : Bool :=
  d.predictions.isSome && d.debug.isSome

/-- A validation issue of a discovered chunk, as enumerated by claim C9: a
missing data artifact, a missing summary, a summary reporting
`integrity_ok=false` (an absent key reads as `False`, line 174), or a
recorded nonnegative `successful_predictions` count disagreeing with the
actual prediction line count. -/
def chunkIssue (c : Nat × ChunkData) : Prop :=
  c.2.predictions.isNone = true ∨ c.2.debug.isNone = true ∨
    c.2.summary = none ∨
    (∃ s, c.2.summary = some s ∧
      (s.integrity_ok.getD false = false ∨
        (∃ v, s.successful_predictions = some v ∧ 0 ≤ v ∧
          v ≠ ((c.2.predictions.getD []).length : Int))))

/-- Every issue of the chunk is recorded in `warnings`, with the summary
cross-checks applying to chunks whose data files exist, following the
structure of the checks in `main` (lines 149-206). -/
def chunkWarned (c : Nat × ChunkData) (warnings : List String) : Prop :=
  ((c.2.predictions.isNone = true ∨ c.2.debug.isNone = true) →
    missingWarning c.1 c.2 ∈ warnings) ∧
  (hasData c.2 = true → c.2.summary = none →
    summaryMissingWarning c.1 ∈ warnings) ∧
  (∀ s, hasData c.2 = true → c.2.summary = some s →
    ((0 ≤ s.successful_predictions.getD (-1) ∧
        s.successful_predictions.getD (-1) ≠
          ((c.2.predictions.getD []).length : Int)) →
      mismatchWarning c.1 (s.successful_predictions.getD (-1))
        (c.2.predictions.getD []).length ∈ warnings) ∧
    (s.integrity_ok.getD false = false →
      integrityWarning c.1 ∈ warnings))

end Combine

namespace GenPred

theorem mkSummary_integrity_ok (n cs ce mr : Nat) (st : ChunkState) :
    (mkSummary n cs ce mr st).integrity_ok = (st.chunkOk == ce - cs) := rfl

theorem mkSummary_successful (n cs ce mr : Nat) (st : ChunkState) :
    (mkSummary n cs ce mr st).successful_predictions = st.chunkOk := rfl

theorem mkSummary_expected (n cs ce mr : Nat) (st : ChunkState) :
    (mkSummary n cs ce mr st).expected_questions = ce - cs := rfl

theorem mkSummary_stopped (n cs ce mr : Nat) (st : ChunkState) :
    (mkSummary n cs ce mr st).stopped_due_to_error =
      (if !(st.chunkOk == ce - cs) && !st.stopAll then true else st.stopAll) := rfl

theorem processChunkGo_count (maxRetries : Nat) (oracle : Nat → AttemptOracle) :
    ∀ idxs : List Nat,
      ((processChunkGo maxRetries oracle idxs).stopAll = true →
        (processChunkGo maxRetries oracle idxs).chunkOk < idxs.length) ∧
      ((processChunkGo maxRetries oracle idxs).stopAll = false →
        (processChunkGo maxRetries oracle idxs).chunkOk = idxs.length) := by
  intro idxs
  induction idxs with
  | nil => simp [processChunkGo]
  | cons idx rest ih =>
    by_cases hq : (runQuestion maxRetries (oracle idx)).success
    · constructor
      · intro hstop
        simp only [processChunkGo, hq, if_pos] at hstop ⊢
        have := ih.1 hstop
        simpa using Nat.succ_lt_succ this
      · intro hstop
        simp only [processChunkGo, hq, if_pos] at hstop ⊢
        simpa using ih.2 hstop
    · constructor
      · intro _
        simp [processChunkGo, hq]
      · intro hstop
        simp [processChunkGo, hq] at hstop

theorem processChunk_count (maxRetries : Nat) (oracle : Nat → AttemptOracle)
    (chunkStart chunkEnd : Nat) :
    ((processChunk maxRetries oracle chunkStart chunkEnd).stopAll = true →
      (processChunk maxRetries oracle chunkStart chunkEnd).chunkOk <
        chunkEnd - chunkStart) ∧
    ((processChunk maxRetries oracle chunkStart chunkEnd).stopAll = false →
      (processChunk maxRetries oracle chunkStart chunkEnd).chunkOk =
        chunkEnd - chunkStart) := by
  have h := processChunkGo_count maxRetries oracle
    (List.range' chunkStart (chunkEnd - chunkStart))
  simpa [processChunk, List.length_range'] using h

/-- C1: For every chunk summary written by the chunk writer, `integrity_ok`
is `true` if and only if `successful_predictions` equals
`expected_questions` and `stopped_due_to_error` is `false`; both directions
hold for every reachable chunk outcome (quantified over every per-question
attempt oracle, covering both the all-success and hard-stop cases). -/
theorem integrity_ok_iff_counts_and_no_stop
    (maxRetries : Nat) (oracle : Nat → AttemptOracle)
    (chunkNo chunkStart chunkEnd : Nat) :
    (mkSummary chunkNo chunkStart chunkEnd maxRetries
        (processChunk maxRetries oracle chunkStart chunkEnd)).integrity_ok = true ↔
      ((mkSummary chunkNo chunkStart chunkEnd maxRetries
          (processChunk maxRetries oracle chunkStart chunkEnd)).successful_predictions =
        (mkSummary chunkNo chunkStart chunkEnd maxRetries
          (processChunk maxRetries oracle chunkStart chunkEnd)).expected_questions ∧
       (mkSummary chunkNo chunkStart chunkEnd maxRetries
          (processChunk maxRetries oracle chunkStart chunkEnd)).stopped_due_to_error =
        false) := by
  have hcount := processChunk_count maxRetries oracle chunkStart chunkEnd
  rw [mkSummary_integrity_ok, mkSummary_successful, mkSummary_expected,
    mkSummary_stopped]
  set st := processChunk maxRetries oracle chunkStart chunkEnd with hst
  constructor
  · intro hint
    have hok : st.chunkOk = chunkEnd - chunkStart := by
      simpa [beq_iff_eq] using hint
    have hstop : st.stopAll = false := by
      cases hstopc : st.stopAll with
      | false => rfl
      | true =>
        have := hcount.1 hstopc
        omega
    refine ⟨hok, ?_⟩
    simp [hok, hstop]
  · rintro ⟨hok, -⟩
    simp [hok]

theorem chunkRanges_nil (C E cur no : Nat) (h : ¬(cur < E ∧ 0 < C)) :
    chunkRanges C E cur no = [] := by
  rw [chunkRanges, dif_neg h]

theorem chunkRanges_cons (C E cur no : Nat) (h : cur < E ∧ 0 < C) :
    chunkRanges C E cur no =
      (no, cur, min (cur + C) E) ::
        chunkRanges C E (min (cur + C) E) (no + 1) := by
  rw [chunkRanges, dif_pos h]

theorem chunkRanges_cover (C E : Nat) (hC : 0 < C) :
    ∀ (fuel cur no : Nat), E - cur ≤ fuel →
      (chunkRanges C E cur no).flatMap
          (fun r => List.range' r.2.1 (r.2.2 - r.2.1)) =
        List.range' cur (E - cur) := by
  intro fuel
  induction fuel with
  | zero =>
    intro cur no hle
    have hcur : ¬ cur < E := by omega
    rw [chunkRanges_nil C E cur no (by omega)]
    have : E - cur = 0 := by omega
    simp [this]
  | succ f ih =>
    intro cur no hle
    by_cases h : cur < E
    · rw [chunkRanges_cons C E cur no ⟨h, hC⟩]
      have h1 : cur < min (cur + C) E := lt_min (by omega) h
      have h2 : min (cur + C) E ≤ E := min_le_right _ _
      have ihm := ih (min (cur + C) E) (no + 1) (by omega)
      rw [List.flatMap_cons, ihm]
      have happ := List.range'_append cur (min (cur + C) E - cur)
        (E - min (cur + C) E) 1
      have e1 : cur + 1 * (min (cur + C) E - cur) = min (cur + C) E := by omega
      have e2 : E - min (cur + C) E + (min (cur + C) E - cur) = E - cur := by
        omega
      rw [e1, e2] at happ
      simpa using happ
    · rw [chunkRanges_nil C E cur no (by omega)]
      have : E - cur = 0 := by omega
      simp [this]

theorem chunkRanges_sizes (C E : Nat) (hC : 0 < C) :
    ∀ (fuel cur no : Nat), E - cur ≤ fuel →
      (∀ r ∈ (chunkRanges C E cur no).dropLast, r.2.2 - r.2.1 = C) ∧
      (∀ r ∈ chunkRanges C E cur no, r.2.2 - r.2.1 ≤ C) := by
  intro fuel
  induction fuel with
  | zero =>
    intro cur no hle
    rw [chunkRanges_nil C E cur no (by omega)]
    simp
  | succ f ih =>
    intro cur no hle
    by_cases h : cur < E
    · rw [chunkRanges_cons C E cur no ⟨h, hC⟩]
      have h1 : cur < min (cur + C) E := lt_min (by omega) h
      have ihm := ih (min (cur + C) E) (no + 1) (by omega)
      constructor
      · intro r hr
        by_cases hnil : chunkRanges C E (min (cur + C) E) (no + 1) = []
        · rw [hnil] at hr
          simp at hr
        · rw [List.dropLast_cons_of_ne_nil hnil] at hr
          rcases List.mem_cons.mp hr with heq | htail
          · subst heq
            have hmE : min (cur + C) E < E := by
              by_contra hge
              exact hnil (chunkRanges_nil C E _ _ (by omega))
            have : min (cur + C) E = cur + C := by omega
            simp [this]
          · exact ihm.1 r htail
      · intro r hr
        rcases List.mem_cons.mp hr with heq | htail
        · subst heq
          simp
          omega
        · exact ihm.2 r htail
    · rw [chunkRanges_nil C E cur no (by omega)]
      simp

theorem chunkRanges_numbers (C E : Nat) (hC : 0 < C) :
    ∀ (fuel cur no : Nat), E - cur ≤ fuel →
      (chunkRanges C E cur no).map (fun r => r.1) =
        List.range' no (chunkRanges C E cur no).length := by
  intro fuel
  induction fuel with
  | zero =>
    intro cur no hle
    rw [chunkRanges_nil C E cur no (by omega)]
    simp
  | succ f ih =>
    intro cur no hle
    by_cases h : cur < E
    · rw [chunkRanges_cons C E cur no ⟨h, hC⟩]
      have h1 : cur < min (cur + C) E := lt_min (by omega) h
      have ihm := ih (min (cur + C) E) (no + 1) (by omega)
      simp [List.range'_succ, ihm]
    · rw [chunkRanges_nil C E cur no (by omega)]
      simp

theorem mkSummary_triple (n cs ce mr : Nat) (st : ChunkState) :
    ((mkSummary n cs ce mr st).chunk_no,
      (mkSummary n cs ce mr st).range_start,
      (mkSummary n cs ce mr st).range_end_exclusive) = (n, cs, ce) := rfl

theorem runChunksGo_ranges_prefix (mr : Nat) (oracle : Nat → AttemptOracle) :
    ∀ rs : List (Nat × Nat × Nat), ∃ t,
      ((runChunksGo mr oracle rs).1.map
          (fun s => (s.chunk_no, s.range_start, s.range_end_exclusive))) ++ t =
        rs := by
  intro rs
  induction rs with
  | nil => exact ⟨[], rfl⟩
  | cons r rest ih =>
    obtain ⟨no, cs, ce⟩ := r
    by_cases hstop : (mkSummary no cs ce mr
        (processChunk mr oracle cs ce)).stopped_due_to_error
    · refine ⟨rest, ?_⟩
      simp [runChunksGo, hstop, mkSummary_triple]
    · obtain ⟨t, ht⟩ := ih
      refine ⟨t, ?_⟩
      simp only [runChunksGo, if_neg hstop, List.map_cons, mkSummary_triple,
        List.cons_append]
      rw [ht]

theorem runChunksGo_ranges_complete (mr : Nat) (oracle : Nat → AttemptOracle) :
    ∀ rs : List (Nat × Nat × Nat), (runChunksGo mr oracle rs).2 = 0 →
      ((runChunksGo mr oracle rs).1.map
          (fun s => (s.chunk_no, s.range_start, s.range_end_exclusive))) = rs := by
  intro rs
  induction rs with
  | nil => intro _; rfl
  | cons r rest ih =>
    obtain ⟨no, cs, ce⟩ := r
    intro hcode
    by_cases hstop : (mkSummary no cs ce mr
        (processChunk mr oracle cs ce)).stopped_due_to_error
    · simp [runChunksGo, hstop] at hcode
    · simp only [runChunksGo, if_neg hstop] at hcode ⊢
      simp only [List.map_cons, mkSummary_triple]
      rw [ih hcode]

/-- C7: For every range `[S, E)` with chunk size `C > 0`, the chunk writer
partitions it into consecutive chunks processed in ascending index order
whose ranges exactly cover `[S, E)` with no gaps and no overlaps (their
concatenated index lists equal `[S, ..., E-1]` in order), every chunk except
possibly the last containing exactly `C` questions (and the last at most
`C`), with chunk numbers assigned sequentially starting at 1 and never
reused; the summaries actually written by a run always follow a prefix of
this partition, the whole of it when the run exits cleanly. -/
theorem chunk_partition_covers (S E C : Nat) (hC : 0 < C) :
    ((chunkRanges C E S 1).flatMap
        (fun r => List.range' r.2.1 (r.2.2 - r.2.1)) =
      List.range' S (E - S)) ∧
    (∀ r ∈ (chunkRanges C E S 1).dropLast, r.2.2 - r.2.1 = C) ∧
    (∀ r ∈ chunkRanges C E S 1, r.2.2 - r.2.1 ≤ C) ∧
    ((chunkRanges C E S 1).map (fun r => r.1) =
      List.range' 1 (chunkRanges C E S 1).length) ∧
    (∀ (mr : Nat) (oracle : Nat → AttemptOracle), ∃ t,
      ((runChunks mr C oracle S E).1.map
          (fun s => (s.chunk_no, s.range_start, s.range_end_exclusive))) ++ t =
        chunkRanges C E S 1) ∧
    (∀ (mr : Nat) (oracle : Nat → AttemptOracle),
      (runChunks mr C oracle S E).2 = 0 →
        (runChunks mr C oracle S E).1.map
            (fun s => (s.chunk_no, s.range_start, s.range_end_exclusive)) =
          chunkRanges C E S 1) := by
  refine ⟨chunkRanges_cover C E hC (E - S) S 1 le_rfl,
    (chunkRanges_sizes C E hC (E - S) S 1 le_rfl).1,
    (chunkRanges_sizes C E hC (E - S) S 1 le_rfl).2,
    chunkRanges_numbers C E hC (E - S) S 1 le_rfl,
    fun mr oracle => runChunksGo_ranges_prefix mr oracle _,
    fun mr oracle => runChunksGo_ranges_complete mr oracle _⟩

/-- Witness for C7 at the concrete range `[3, 27)` with chunk size 10. -/
theorem chunk_partition_covers_witness :
    0 < 10 ∧
    (((chunkRanges 10 27 3 1).flatMap
        (fun r => List.range' r.2.1 (r.2.2 - r.2.1)) =
      List.range' 3 (27 - 3)) ∧
    (∀ r ∈ (chunkRanges 10 27 3 1).dropLast, r.2.2 - r.2.1 = 10) ∧
    (∀ r ∈ chunkRanges 10 27 3 1, r.2.2 - r.2.1 ≤ 10) ∧
    ((chunkRanges 10 27 3 1).map (fun r => r.1) =
      List.range' 1 (chunkRanges 10 27 3 1).length) ∧
    (∀ (mr : Nat) (oracle : Nat → AttemptOracle), ∃ t,
      ((runChunks mr 10 oracle 3 27).1.map
          (fun s => (s.chunk_no, s.range_start, s.range_end_exclusive))) ++ t =
        chunkRanges 10 27 3 1) ∧
    (∀ (mr : Nat) (oracle : Nat → AttemptOracle),
      (runChunks mr 10 oracle 3 27).2 = 0 →
        (runChunks mr 10 oracle 3 27).1.map
            (fun s => (s.chunk_no, s.range_start, s.range_end_exclusive)) =
          chunkRanges 10 27 3 1)) :=
  ⟨by decide, chunk_partition_covers 3 27 10 (by decide)⟩

end GenPred

namespace Predicting

/-- C3 counterexample: a tracking file that exists but is malformed makes
`_load_tracking` silently return the fabricated fresh
`status="new", last_index=-1` checkpoint — indistinguishable from the
no-checkpoint case — instead of surfacing the error to the caller. -/
theorem load_tracking_malformed_fabricates_fresh :
    loadTracking .malformed "dev.json" = freshTracking "dev.json" ∧
    loadTracking .malformed "dev.json" = loadTracking .missing "dev.json" ∧
    (loadTracking .malformed "dev.json").status = "new" ∧
    (loadTracking .malformed "dev.json").last_index = -1 ∧
    (loadTracking .malformed "dev.json").failures = [] :=
  ⟨rfl, rfl, rfl, rfl, rfl⟩

/-- C3 (amended): when the tracking file exists but is unreadable or
malformed, `_load_tracking` swallows the parse error and returns the same
fresh `status="new", last_index=-1` checkpoint it fabricates when no
checkpoint exists; the error is never surfaced to the caller.  Only a
parseable file yields its stored contents. -/
theorem load_tracking_fresh_on_unreadable (qf : String) :
    loadTracking .missing qf = freshTracking qf ∧
    loadTracking .empty qf = freshTracking qf ∧
    loadTracking .malformed qf = freshTracking qf ∧
    (freshTracking qf).status = "new" ∧
    (freshTracking qf).last_index = -1 ∧
    (∀ t, loadTracking (.valid t) qf = t) :=
  ⟨rfl, rfl, rfl, rfl, rfl, fun _ => rfl⟩

/-- C5 counterexample: agent A returns a truthy `error`, agents B and C
succeed; `_run_agents` does not halt at stage A — it substitutes the
fallback db, runs B and C, and returns the success dictionary with tag
`"ok"`, producing downstream output despite the stage error. -/
theorem run_agents_ok_despite_stage_a_error :
    truthy (AResult.mk (some "boom") (some "wrong_db")).error = true ∧
    (runAgents ⟨some "boom", some "wrong_db"⟩
        (fun _ => ⟨none, ["singer"], "r"⟩)
        (fun _ _ => ⟨none, some "SELECT count(*) FROM singer", "r"⟩)
        "concert_singer").2 = "ok" ∧
    (runAgents ⟨some "boom", some "wrong_db"⟩
        (fun _ => ⟨none, ["singer"], "r"⟩)
        (fun _ _ => ⟨none, some "SELECT count(*) FROM singer", "r"⟩)
        "concert_singer").1 =
      .ok "concert_singer" ["singer"] (some "SELECT count(*) FROM singer") "r"
        ⟨some "boom", some "wrong_db"⟩ ⟨none, ["singer"], "r"⟩
        ⟨none, some "SELECT count(*) FROM singer", "r"⟩ :=
  ⟨rfl, rfl, rfl⟩

/-- C5 (amended): within `_run_agents`, an error from agent B or agent C
halts orchestration immediately: the result carries that stage's tag
(`"b"`/`"c"`) and exactly the outputs produced so far (the `errB` shape has
no agent C component, so nothing downstream is invented); an agent A error,
however, does not halt — the fallback source id is substituted and the
downstream stages still run. -/
theorem run_agents_halts_on_b_or_c_error (a : AResult) (b : String → BResult)
    (c : String → List String → CResult) (fallbackDb : String) :
    (truthy (b (chooseDb a fallbackDb)).error = true →
      runAgents a b c fallbackDb =
        (.errB (b (chooseDb a fallbackDb)).error a (b (chooseDb a fallbackDb)),
          "b")) ∧
    (truthy (b (chooseDb a fallbackDb)).error = false →
      truthy (c (chooseDb a fallbackDb)
          (b (chooseDb a fallbackDb)).relevant_tables).error = true →
      runAgents a b c fallbackDb =
        (.errC (c (chooseDb a fallbackDb)
            (b (chooseDb a fallbackDb)).relevant_tables).error a
          (b (chooseDb a fallbackDb))
          (c (chooseDb a fallbackDb)
            (b (chooseDb a fallbackDb)).relevant_tables), "c")) ∧
    (truthy (b (chooseDb a fallbackDb)).error = false →
      truthy (c (chooseDb a fallbackDb)
          (b (chooseDb a fallbackDb)).relevant_tables).error = false →
      runAgents a b c fallbackDb =
        (.ok (chooseDb a fallbackDb)
          (b (chooseDb a fallbackDb)).relevant_tables
          (c (chooseDb a fallbackDb)
            (b (chooseDb a fallbackDb)).relevant_tables).SQL
          (c (chooseDb a fallbackDb)
            (b (chooseDb a fallbackDb)).relevant_tables).reasons a
          (b (chooseDb a fallbackDb))
          (c (chooseDb a fallbackDb)
            (b (chooseDb a fallbackDb)).relevant_tables), "ok")) ∧
    (truthy a.error = true → chooseDb a fallbackDb = fallbackDb) := by
  refine ⟨fun hb => ?_, fun hb hc => ?_, fun hb hc => ?_, fun ha => ?_⟩
  · simp [runAgents, hb]
  · simp [runAgents, hb, hc]
  · simp [runAgents, hb, hc]
  · simp [chooseDb, ha]

/-- Witness for the amended C5 at a concrete erroring agent B. -/
theorem run_agents_halts_on_b_or_c_error_witness :
    truthy ((fun (_ : String) =>
        (⟨some "b down", [], ""⟩ : BResult)) (chooseDb ⟨none, some "db1"⟩ "fb")).error = true ∧
    runAgents ⟨none, some "db1"⟩ (fun _ => ⟨some "b down", [], ""⟩)
        (fun _ _ => ⟨none, some "SELECT 1", ""⟩) "fb" =
      (.errB (some "b down") ⟨none, some "db1"⟩ ⟨some "b down", [], ""⟩, "b") :=
  ⟨rfl, (run_agents_halts_on_b_or_c_error ⟨none, some "db1"⟩
    (fun _ => ⟨some "b down", [], ""⟩)
    (fun _ _ => ⟨none, some "SELECT 1", ""⟩) "fb").1 rfl⟩

theorem predictStep_visited (retryCount : Nat)
    (oracle : Nat → Nat → AgentsOutcome) (idx : Nat) (item : QItem)
    (st : RunState) :
    (predictStep retryCount oracle idx item st).visited =
      st.visited ++ [idx] := by
  unfold predictStep
  split
  · rfl
  split
  · rfl
  by_cases hr : (retryLoop retryCount (oracle idx)).success = true
  · simp [hr]
  · simp only [hr, if_neg, Bool.false_eq_true]
    split
    · rfl
    split <;> rfl

theorem runLoopGo_visited (retryCount : Nat)
    (oracle : Nat → Nat → AgentsOutcome) (questions : List QItem) :
    ∀ (idxs : List Nat) (st : RunState),
      (runLoopGo retryCount oracle questions idxs st).visited =
        st.visited ++ idxs := by
  intro idxs
  induction idxs with
  | nil => intro st; simp [runLoopGo]
  | cons idx rest ih =>
    intro st
    rw [runLoopGo, ih, predictStep_visited]
    simp

/-- C6: loading when no checkpoint exists yields a fresh checkpoint with
`status="new"` and `last_index=-1` (never a nonzero progress value); a run
resumed from a checkpoint with `last_index = k` iterates exactly the
indices `k+1, ..., len-1`, so processing begins at `k+1`; an explicit reset
reinitializes `last_index=-1`, `last_attempted=-1`, `status="new"`,
`failures=[]`. -/
theorem checkpoint_resume_semantics (qf : String) (t : Tracking)
    (retryCount : Nat) (oracle : Nat → Nat → AgentsOutcome)
    (questions : List QItem) (k : Int) (hk : t.last_index = k)
    (hk1 : -1 ≤ k) :
    (loadTracking .missing qf = freshTracking qf ∧
      (freshTracking qf).status = "new" ∧
      (freshTracking qf).last_index = -1 ∧
      (freshTracking qf).last_attempted = -1 ∧
      (freshTracking qf).failures = []) ∧
    ((runLoop retryCount oracle questions t).visited =
      List.range' (k + 1).toNat (questions.length - (k + 1).toNat)) ∧
    ((resetTracking t).last_index = -1 ∧
      (resetTracking t).last_attempted = -1 ∧
      (resetTracking t).status = "new" ∧
      (resetTracking t).failures = []) := by
  refine ⟨⟨rfl, rfl, rfl, rfl, rfl⟩, ?_, rfl, rfl, rfl, rfl⟩
  rw [runLoop, runLoopGo_visited, hk]
  simp

/-- Witness for C6: resuming from `last_index = 1` over four questions
visits exactly indices 2 and 3. -/
theorem checkpoint_resume_semantics_witness :
    (⟨"q.json", 1, 1, "running", []⟩ : Tracking).last_index = 1 ∧
    (-1 : Int) ≤ 1 ∧
    (runLoop 1 (fun _ _ => ⟨"b", none, some "x"⟩)
        [⟨"a", "d"⟩, ⟨"b", "d"⟩, ⟨"c", "d"⟩, ⟨"d", "d"⟩]
        ⟨"q.json", 1, 1, "running", []⟩).visited =
      List.range' ((1 : Int) + 1).toNat (4 - ((1 : Int) + 1).toNat) :=
  ⟨rfl, by decide,
    (checkpoint_resume_semantics "q.json" ⟨"q.json", 1, 1, "running", []⟩ 1
      (fun _ _ => ⟨"b", none, some "x"⟩)
      [⟨"a", "d"⟩, ⟨"b", "d"⟩, ⟨"c", "d"⟩, ⟨"d", "d"⟩] 1 rfl
      (by decide)).2.1⟩

end Predicting

namespace Predicting

theorem retryLoopGo_eq_success (retryCount : Nat) (oracle : Nat → AgentsOutcome)
    (fuel attempt : Nat) (lastError : Option String) (waits : Nat)
    (h : attempt < retryCount)
    (hs : isSuccess (oracle (attempt + 1)) = true) :
    retryLoopGo retryCount oracle (fuel + 1) attempt lastError waits =
      ⟨attempt + 1, true, normalizeSql ((oracle (attempt + 1)).sql.getD ""),
        waits, lastError, (oracle (attempt + 1)).stage⟩ := by
  rw [retryLoopGo, if_pos h, if_pos hs]

theorem retryLoopGo_eq_retry (retryCount : Nat) (oracle : Nat → AgentsOutcome)
    (fuel attempt : Nat) (lastError : Option String) (waits : Nat)
    (h : attempt < retryCount)
    (hs : ¬ isSuccess (oracle (attempt + 1)) = true)
    (hnext : attempt + 1 < retryCount) :
    retryLoopGo retryCount oracle (fuel + 1) attempt lastError waits =
      retryLoopGo retryCount oracle fuel (attempt + 1)
        (oracle (attempt + 1)).error (waits + 1) := by
  rw [retryLoopGo, if_pos h, if_neg hs, if_pos hnext]

theorem retryLoopGo_eq_giveup (retryCount : Nat) (oracle : Nat → AgentsOutcome)
    (fuel attempt : Nat) (lastError : Option String) (waits : Nat)
    (h : attempt < retryCount)
    (hs : ¬ isSuccess (oracle (attempt + 1)) = true)
    (hnext : ¬ attempt + 1 < retryCount) :
    retryLoopGo retryCount oracle (fuel + 1) attempt lastError waits =
      ⟨attempt + 1, false, "", waits, (oracle (attempt + 1)).error,
        (oracle (attempt + 1)).stage⟩ := by
  rw [retryLoopGo, if_pos h, if_neg hs, if_neg hnext]

theorem retryLoopGo_spec (retryCount : Nat) (oracle : Nat → AgentsOutcome) :
    ∀ (fuel attempt : Nat) (lastError : Option String) (waits : Nat),
      retryCount - attempt ≤ fuel → attempt < retryCount →
      (attempt + 1 ≤
          (retryLoopGo retryCount oracle fuel attempt lastError
            waits).attemptsMade ∧
        (retryLoopGo retryCount oracle fuel attempt lastError
          waits).attemptsMade ≤ retryCount) ∧
      (∀ a, attempt + 1 ≤ a →
        a < (retryLoopGo retryCount oracle fuel attempt lastError
          waits).attemptsMade →
        isSuccess (oracle a) = false) ∧
      ((retryLoopGo retryCount oracle fuel attempt lastError waits).success =
          true →
        isSuccess (oracle
          (retryLoopGo retryCount oracle fuel attempt lastError
            waits).attemptsMade) = true) ∧
      ((retryLoopGo retryCount oracle fuel attempt lastError waits).success =
          false →
        (retryLoopGo retryCount oracle fuel attempt lastError
          waits).attemptsMade = retryCount ∧
          isSuccess (oracle retryCount) = false) ∧
      ((retryLoopGo retryCount oracle fuel attempt lastError waits).waits =
        waits +
          ((retryLoopGo retryCount oracle fuel attempt lastError
            waits).attemptsMade - (attempt + 1))) := by
  intro fuel
  induction fuel with
  | zero =>
    intro attempt lastError waits hfuel hlt
    omega
  | succ f ih =>
    intro attempt lastError waits hfuel hlt
    by_cases hs : isSuccess (oracle (attempt + 1)) = true
    · rw [retryLoopGo_eq_success retryCount oracle f attempt lastError waits
        hlt hs]
      refine ⟨⟨le_rfl, hlt⟩, ?_, fun _ => hs, ?_, by simp⟩
      · intro a ha1 ha2
        simp at ha2
        omega
      · intro hfalse
        simp at hfalse
    · by_cases hnext : attempt + 1 < retryCount
      · rw [retryLoopGo_eq_retry retryCount oracle f attempt lastError waits
          hlt hs hnext]
        have ihr := ih (attempt + 1) (oracle (attempt + 1)).error (waits + 1)
          (by omega) hnext
        refine ⟨⟨by omega, ihr.1.2⟩, ?_, ihr.2.2.1, ihr.2.2.2.1, ?_⟩
        · intro a ha1 ha2
          rcases Nat.eq_or_lt_of_le ha1 with heq | hgt
          · rw [← heq]
            simpa using hs
          · exact ihr.2.1 a hgt ha2
        · have hw := ihr.2.2.2.2
          have hb := ihr.1.1
          omega
      · rw [retryLoopGo_eq_giveup retryCount oracle f attempt lastError waits
          hlt hs hnext]
        have heq : attempt + 1 = retryCount := by omega
        refine ⟨⟨le_rfl, le_of_eq heq⟩, ?_, ?_, ?_, by simp⟩
        · intro a ha1 ha2
          simp at ha2
          omega
        · intro habs
          simp at habs
        · intro _
          exact ⟨heq, by rw [← heq]; simpa using hs⟩

theorem runQuestionAux_bound (oracle : GenPred.AttemptOracle) :
    ∀ (remaining attempt : Nat) (lastError : String),
      (GenPred.runQuestionAux oracle remaining attempt lastError).attemptsUsed ≤
        attempt + remaining := by
  intro remaining
  induction remaining with
  | zero =>
    intro attempt lastError
    simp [GenPred.runQuestionAux]
  | succ r ih =>
    intro attempt lastError
    rw [GenPred.runQuestionAux]
    cases oracle (attempt + 1) with
    | ok sql => simp
    | error e =>
      simp only
      have := ih (attempt + 1) e
      omega

/-- C4: for every question, the retry controller performs at most the
configured number of attempts (`retry_count >= 1`, and on success at least
one), a value of 1 meaning no retry; it stops at the first successful
attempt (every earlier attempt failed, and the attempt it stops at succeeds
when the loop reports success, while on give-up all `retry_count` attempts
failed); and the inter-attempt wait happens exactly once between
consecutive attempts (`waits = attemptsMade - 1`), never after the final
attempt.  The chunked generator's retry loop likewise performs at most
`max_retries + 1` attempts. -/
theorem retry_controller_bounded (retryCount : Nat)
    (oracle : Nat → AgentsOutcome) (hrc : 1 ≤ retryCount) :
    (1 ≤ (retryLoop retryCount oracle).attemptsMade ∧
      (retryLoop retryCount oracle).attemptsMade ≤ retryCount) ∧
    (∀ a, 1 ≤ a → a < (retryLoop retryCount oracle).attemptsMade →
      isSuccess (oracle a) = false) ∧
    ((retryLoop retryCount oracle).success = true →
      isSuccess (oracle (retryLoop retryCount oracle).attemptsMade) = true) ∧
    ((retryLoop retryCount oracle).success = false →
      (retryLoop retryCount oracle).attemptsMade = retryCount ∧
        isSuccess (oracle retryCount) = false) ∧
    ((retryLoop retryCount oracle).waits =
      (retryLoop retryCount oracle).attemptsMade - 1) ∧
    (retryCount = 1 → (retryLoop retryCount oracle).attemptsMade = 1) ∧
    (∀ (maxRetries : Nat) (o : GenPred.AttemptOracle),
      (GenPred.runQuestion maxRetries o).attemptsUsed ≤ maxRetries + 1) := by
  have h := retryLoopGo_spec retryCount oracle retryCount 0 none 0
    (by omega) (by omega)
  rw [retryLoop]
  refine ⟨⟨h.1.1, h.1.2⟩, h.2.1, h.2.2.1, h.2.2.2.1, ?_, ?_, ?_⟩
  · have := h.2.2.2.2
    omega
  · intro h1
    have := h.1.1
    have := h.1.2
    omega
  · intro maxRetries o
    have := runQuestionAux_bound o (maxRetries + 1) 0 ""
    rw [GenPred.runQuestion]
    omega

/-- Witness for C4: three attempts configured, failure twice then success on
the third attempt. -/
theorem retry_controller_bounded_witness :
    1 ≤ 3 ∧
    ((1 ≤ (retryLoop 3 (fun a => if a = 3 then ⟨"ok", some "SELECT 1", none⟩
          else ⟨"b", none, some "boom"⟩)).attemptsMade ∧
      (retryLoop 3 (fun a => if a = 3 then ⟨"ok", some "SELECT 1", none⟩
          else ⟨"b", none, some "boom"⟩)).attemptsMade ≤ 3) ∧
    (∀ a, 1 ≤ a → a < (retryLoop 3 (fun a => if a = 3 then
          (⟨"ok", some "SELECT 1", none⟩ : AgentsOutcome)
          else ⟨"b", none, some "boom"⟩)).attemptsMade →
      isSuccess ((fun a => if a = 3 then
          (⟨"ok", some "SELECT 1", none⟩ : AgentsOutcome)
          else ⟨"b", none, some "boom"⟩) a) = false) ∧
    ((retryLoop 3 (fun a => if a = 3 then ⟨"ok", some "SELECT 1", none⟩
          else ⟨"b", none, some "boom"⟩)).success = true →
      isSuccess ((fun a => if a = 3 then
          (⟨"ok", some "SELECT 1", none⟩ : AgentsOutcome)
          else ⟨"b", none, some "boom"⟩)
        (retryLoop 3 (fun a => if a = 3 then ⟨"ok", some "SELECT 1", none⟩
          else ⟨"b", none, some "boom"⟩)).attemptsMade) = true) ∧
    ((retryLoop 3 (fun a => if a = 3 then ⟨"ok", some "SELECT 1", none⟩
          else ⟨"b", none, some "boom"⟩)).success = false →
      (retryLoop 3 (fun a => if a = 3 then ⟨"ok", some "SELECT 1", none⟩
          else ⟨"b", none, some "boom"⟩)).attemptsMade = 3 ∧
        isSuccess ((fun a => if a = 3 then
          (⟨"ok", some "SELECT 1", none⟩ : AgentsOutcome)
          else ⟨"b", none, some "boom"⟩) 3) = false) ∧
    ((retryLoop 3 (fun a => if a = 3 then ⟨"ok", some "SELECT 1", none⟩
          else ⟨"b", none, some "boom"⟩)).waits =
      (retryLoop 3 (fun a => if a = 3 then ⟨"ok", some "SELECT 1", none⟩
          else ⟨"b", none, some "boom"⟩)).attemptsMade - 1) ∧
    ((3 : Nat) = 1 → (retryLoop 3 (fun a => if a = 3 then
          (⟨"ok", some "SELECT 1", none⟩ : AgentsOutcome)
          else ⟨"b", none, some "boom"⟩)).attemptsMade = 1) ∧
    (∀ (maxRetries : Nat) (o : GenPred.AttemptOracle),
      (GenPred.runQuestion maxRetries o).attemptsUsed ≤ maxRetries + 1)) :=
  ⟨by decide, retry_controller_bounded 3
    (fun a => if a = 3 then ⟨"ok", some "SELECT 1", none⟩
      else ⟨"b", none, some "boom"⟩) (by decide)⟩

end Predicting

namespace GenPred

theorem processChunkGo_hard_fail (mr : Nat) (oracle : Nat → AttemptOracle) :
    ∀ (pre : List Nat) (failIdx : Nat) (post : List Nat),
      (∀ i ∈ pre, (runQuestion mr (oracle i)).success = true) →
      (runQuestion mr (oracle failIdx)).success = false →
      processChunkGo mr oracle (pre ++ failIdx :: post) =
        ⟨pre.map (fun i => (runQuestion mr (oracle i)).sql),
          pre.map (fun i =>
            DebugRow.success i (runQuestion mr (oracle i)).sql) ++
            [DebugRow.failure failIdx
              (failMsg mr (runQuestion mr (oracle failIdx)).lastError)],
          pre.length, true⟩ := by
  intro pre
  induction pre with
  | nil =>
    intro failIdx post _ hfail
    simp [processChunkGo, hfail]
  | cons i rest ih =>
    intro failIdx post hpre hfail
    have hi : (runQuestion mr (oracle i)).success = true :=
      hpre i (List.mem_cons_self i rest)
    have hrest : ∀ j ∈ rest, (runQuestion mr (oracle j)).success = true :=
      fun j hj => hpre j (List.mem_cons_of_mem i hj)
    simp only [List.cons_append, processChunkGo, hi, if_pos, List.append_eq]
    rw [ih failIdx post hrest hfail]
    simp

/-- The split of `[cs, ce)` around the failing index `cs + j`. -/
theorem range'_split_at (cs ce j : Nat) (hj : cs + j < ce) :
    List.range' cs (ce - cs) =
      List.range' cs j ++ (cs + j) :: List.range' (cs + j + 1) (ce - (cs + j + 1)) := by
  have h1 : ce - cs = j + (ce - (cs + j)) := by omega
  have h2 : ce - (cs + j) = (ce - (cs + j + 1)) + 1 := by omega
  rw [h1]
  have happ := List.range'_append cs j (ce - (cs + j)) 1
  rw [Nat.one_mul, Nat.add_comm (ce - (cs + j)) j] at happ
  rw [← happ, h2, List.range'_succ]

end GenPred

/-- C2 (amended): when a question exhausts all retry attempts in the chunk
writer, the question and the whole chunked run terminate: the chunk stops
with `stopped_due_to_error = true`, the failure row is written to the debug
trace, no index higher than the failed one within the chunk appears in
`predictions.txt` or `predictions_debug.jsonl`, and the run returns exit
code 2 at that chunk with no later chunk processed.  In the
checkpoint-based runner (`Predicting.py`), an exhausted question is
recorded in the checkpoint's `failures` list before moving on, but the run
does **not** terminate: the loop continues with every remaining index. -/
theorem exhausted_retries_stop_chunk_and_record (mr : Nat)
    (oracle : Nat → GenPred.AttemptOracle) (cs ce j : Nat)
    (hj : cs + j < ce)
    (hpre : ∀ i, i < j → (GenPred.runQuestion mr (oracle (cs + i))).success = true)
    (hfail : (GenPred.runQuestion mr (oracle (cs + j))).success = false) :
    ((GenPred.processChunk mr oracle cs ce).stopAll = true) ∧
    ((GenPred.processChunk mr oracle cs ce).preds =
      (List.range' cs j).map (fun i => (GenPred.runQuestion mr (oracle i)).sql)) ∧
    ((GenPred.processChunk mr oracle cs ce).debugRows =
      (List.range' cs j).map (fun i =>
        GenPred.DebugRow.success i (GenPred.runQuestion mr (oracle i)).sql) ++
        [GenPred.DebugRow.failure (cs + j)
          (GenPred.failMsg mr
            (GenPred.runQuestion mr (oracle (cs + j))).lastError)]) ∧
    (∀ r ∈ (GenPred.processChunk mr oracle cs ce).debugRows,
      r.index ≤ cs + j) ∧
    (∀ chunkNo, (GenPred.mkSummary chunkNo cs ce mr
        (GenPred.processChunk mr oracle cs ce)).stopped_due_to_error = true) ∧
    (∀ chunkNo rest,
      GenPred.runChunksGo mr oracle ((chunkNo, cs, ce) :: rest) =
        ([GenPred.mkSummary chunkNo cs ce mr
          (GenPred.processChunk mr oracle cs ce)], 2)) ∧
    (∀ (retryCount : Nat) (oracle2 : Nat → Nat → Predicting.AgentsOutcome)
        (questions : List Predicting.QItem) (idxs : List Nat)
        (st : Predicting.RunState),
      (Predicting.runLoopGo retryCount oracle2 questions idxs st).visited =
        st.visited ++ idxs) ∧
    (∀ (retryCount : Nat) (oracle2 : Nat → Nat → Predicting.AgentsOutcome)
        (idx : Nat) (item : Predicting.QItem) (st : Predicting.RunState),
      item.question ≠ "" → item.db_id ≠ "" → 0 < retryCount →
      (Predicting.retryLoop retryCount (oracle2 idx)).success = false →
      (Predicting.predictStep retryCount oracle2 idx item st).tracking.failures =
        st.tracking.failures ++
          [⟨idx, (Predicting.retryLoop retryCount (oracle2 idx)).lastError,
            (Predicting.retryLoop retryCount (oracle2 idx)).lastStage⟩]) := by
  have hpre' : ∀ i ∈ List.range' cs j,
      (GenPred.runQuestion mr (oracle i)).success = true := by
    intro i hi
    rw [List.mem_range'_1] at hi
    have : i = cs + (i - cs) := by omega
    rw [this]
    exact hpre (i - cs) (by omega)
  have hchunk : GenPred.processChunk mr oracle cs ce =
      ⟨(List.range' cs j).map (fun i => (GenPred.runQuestion mr (oracle i)).sql),
        (List.range' cs j).map (fun i =>
          GenPred.DebugRow.success i (GenPred.runQuestion mr (oracle i)).sql) ++
          [GenPred.DebugRow.failure (cs + j)
            (GenPred.failMsg mr
              (GenPred.runQuestion mr (oracle (cs + j))).lastError)],
        (List.range' cs j).length, true⟩ := by
    rw [GenPred.processChunk, GenPred.range'_split_at cs ce j hj]
    exact GenPred.processChunkGo_hard_fail mr oracle (List.range' cs j) (cs + j)
      (List.range' (cs + j + 1) (ce - (cs + j + 1))) hpre' hfail
  have hstop : (GenPred.processChunk mr oracle cs ce).stopAll = true := by
    rw [hchunk]
  have hsumm : ∀ chunkNo, (GenPred.mkSummary chunkNo cs ce mr
      (GenPred.processChunk mr oracle cs ce)).stopped_due_to_error = true := by
    intro chunkNo
    rw [GenPred.mkSummary_stopped]
    rw [hstop]
    simp
  refine ⟨hstop, by rw [hchunk], by rw [hchunk], ?_, hsumm, ?_, ?_, ?_⟩
  · intro r hr
    rw [hchunk] at hr
    simp only [List.mem_append, List.mem_map, List.mem_singleton] at hr
    rcases hr with ⟨i, hi, rfl⟩ | rfl
    · rw [List.mem_range'_1] at hi
      simp only [GenPred.DebugRow.index]
      omega
    · simp [GenPred.DebugRow.index]
  · intro chunkNo rest
    rw [GenPred.runChunksGo, if_pos (hsumm chunkNo)]
  · intro retryCount oracle2 questions idxs st
    exact Predicting.runLoopGo_visited retryCount oracle2 questions idxs st
  · intro retryCount oracle2 idx item st hq hdb hrc hfailP
    rw [Predicting.predictStep, if_neg hq, if_neg hdb]
    simp only [hfailP, Bool.false_eq_true, if_false, if_pos hrc]

/-- Witness for the amended C2: with no retries and a first question whose
only attempt raises, the chunk over `[0, 2)` stops at index 0. -/
theorem exhausted_retries_stop_chunk_and_record_witness :
    ((0 : Nat) + 0 < 2) ∧
    (∀ i, i < 0 →
      (GenPred.runQuestion 0 ((fun idx _ => if idx = 0 then
        Except.error "Agent B JSON parse error" else Except.ok "SELECT 1")
          ((0 : Nat) + i))).success = true) ∧
    ((GenPred.runQuestion 0 ((fun idx _ => if idx = 0 then
        Except.error "Agent B JSON parse error" else Except.ok "SELECT 1")
          ((0 : Nat) + 0))).success = false) ∧
    ((GenPred.processChunk 0 (fun idx _ => if idx = 0 then
        Except.error "Agent B JSON parse error" else Except.ok "SELECT 1")
        0 2).stopAll = true) :=
  have hfail : (GenPred.runQuestion 0 ((fun (idx : Nat) (_ : Nat) =>
      if idx = 0 then Except.error "Agent B JSON parse error"
      else Except.ok "SELECT 1") ((0 : Nat) + 0))).success = false := by decide
  ⟨by decide, fun i hi => absurd hi (by omega), hfail,
    (exhausted_retries_stop_chunk_and_record 0
      (fun idx _ => if idx = 0 then Except.error "Agent B JSON parse error"
        else Except.ok "SELECT 1") 0 2 0 (by decide)
      (fun i hi => absurd hi (by omega)) hfail).1⟩

/-- C2 counterexample: in the checkpoint-based runner, after the question at
index 0 exhausts all attempts (`retry_count = 1`), the run does not
terminate: index 1 is still processed and its prediction written, so the
claim that the whole run terminates at the failed question is false. -/
theorem run_continues_after_exhausted_retries :
    ((Predicting.retryLoop 1 ((fun (idx : Nat) (_ : Nat) =>
        if idx = 0 then (⟨"b", none, some "agent b failed"⟩ :
          Predicting.AgentsOutcome)
        else ⟨"ok", some "SELECT 1", none⟩) 0)).success = false) ∧
    ((Predicting.runLoop 1
        (fun idx _ => if idx = 0 then ⟨"b", none, some "agent b failed"⟩
          else ⟨"ok", some "SELECT 1", none⟩)
        [⟨"q0", "db0"⟩, ⟨"q1", "db1"⟩]
        (Predicting.freshTracking "dev.json")).visited = [0, 1]) ∧
    ((Predicting.runLoop 1
        (fun idx _ => if idx = 0 then ⟨"b", none, some "agent b failed"⟩
          else ⟨"ok", some "SELECT 1", none⟩)
        [⟨"q0", "db0"⟩, ⟨"q1", "db1"⟩]
        (Predicting.freshTracking "dev.json")).predLines =
      ["SELECT 1\tdb1"]) ∧
    ((Predicting.runLoop 1
        (fun idx _ => if idx = 0 then ⟨"b", none, some "agent b failed"⟩
          else ⟨"ok", some "SELECT 1", none⟩)
        [⟨"q0", "db0"⟩, ⟨"q1", "db1"⟩]
        (Predicting.freshTracking "dev.json")).tracking.last_index = 1) ∧
    ((Predicting.runLoop 1
        (fun idx _ => if idx = 0 then ⟨"b", none, some "agent b failed"⟩
          else ⟨"ok", some "SELECT 1", none⟩)
        [⟨"q0", "db0"⟩, ⟨"q1", "db1"⟩]
        (Predicting.freshTracking "dev.json")).tracking.failures =
      [⟨0, some "agent b failed", "b"⟩]) := by
  refine ⟨by decide, ?_, ?_, ?_, ?_⟩ <;> decide

namespace Combine

theorem findChunkDirs_mem (entries : List DirEntry) (p : Nat × String) :
    p ∈ findChunkDirs entries ↔
      ∃ e ∈ entries, e.isDir = true ∧ parseChunkName e.name = some p.1 ∧
        p.2 = e.name := by
  rw [findChunkDirs]
  rw [List.mem_insertionSort, List.mem_filterMap]
  constructor
  · rintro ⟨e, he, hfe⟩
    cases hd : e.isDir with
    | false => simp [hd] at hfe
    | true =>
      rcases hp : parseChunkName e.name with _ | chunkNo
      · simp [hd, hp] at hfe
      · simp only [hd, Bool.not_true, Bool.false_eq_true, if_false, hp] at hfe
        rw [Option.some_inj] at hfe
        refine ⟨e, he, hd, ?_, ?_⟩
        · rw [hp, ← hfe]
        · rw [← hfe]
  · rintro ⟨e, he, hd, hp, hname⟩
    refine ⟨e, he, ?_⟩
    obtain ⟨pn, pe⟩ := p
    simp only at hp hname
    subst hname
    simp [hd, hp]

theorem findChunkDirs_sorted (entries : List DirEntry) :
    List.Sorted (fun a b : Nat × String => a.1 ≤ b.1)
      (findChunkDirs entries) := by
  haveI : IsTotal (Nat × String) (fun a b => a.1 ≤ b.1) :=
    ⟨fun a b => Nat.le_total a.1 b.1⟩
  haveI : IsTrans (Nat × String) (fun a b => a.1 ≤ b.1) :=
    ⟨fun _ _ _ hab hbc => Nat.le_trans hab hbc⟩
  exact List.sorted_insertionSort _ _

/-- C8: the combiner discovers chunk directories by the fixed
`test_chuck_<n>` pattern (exactly the directory entries matching it) and
orders them ascending by the numeric chunk number; merging preserves each
chunk's line order.  In particular, three valid chunks numbered 1, 2, 10
with 2 predictions each — listed lexically as 1, 10, 2 — are discovered in
numeric order 1, 2, 10 and merged into 6 combined lines in that order. -/
theorem combiner_numeric_order_and_scenario :
    (∀ entries : List DirEntry,
      List.Sorted (fun a b : Nat × String => a.1 ≤ b.1)
        (findChunkDirs entries)) ∧
    (∀ (entries : List DirEntry) (p : Nat × String),
      p ∈ findChunkDirs entries ↔
        ∃ e ∈ entries, e.isDir = true ∧ parseChunkName e.name = some p.1 ∧
          p.2 = e.name) ∧
    (findChunkDirs
        [⟨"test_chuck_1", true⟩, ⟨"test_chuck_10", true⟩,
          ⟨"combine_report.json", false⟩, ⟨"session.log", false⟩,
          ⟨"test_chuck_2", true⟩] =
      [(1, "test_chuck_1"), (2, "test_chuck_2"), (10, "test_chuck_10")]) ∧
    ((combine false
        [(1, ⟨some ["A1", "A2"], some ["dA1", "dA2"],
          some ⟨some 2, some 2, some true⟩⟩),
         (2, ⟨some ["B1", "B2"], some ["dB1", "dB2"],
          some ⟨some 2, some 2, some true⟩⟩),
         (10, ⟨some ["C1", "C2"], some ["dC1", "dC2"],
          some ⟨some 2, some 2, some true⟩⟩)]).map
        (fun o => (o.mergedPred, o.mergedDebug, o.warnings)) =
      .ok (["A1", "A2", "B1", "B2", "C1", "C2"],
        ["dA1", "dA2", "dB1", "dB2", "dC1", "dC2"], [])) := by
  refine ⟨findChunkDirs_sorted, findChunkDirs_mem, by decide, by rfl⟩

theorem combineGo_lenient (chunks : List (Nat × ChunkData)) :
    ∀ (mp md : List String) (rp : List ChunkReport) (ws : List String),
      ∃ out, combineGo false chunks mp md rp ws = .ok out ∧
        out.mergedPred = mp ++ chunks.flatMap
          (fun c => if hasData c.2 then c.2.predictions.getD [] else []) ∧
        out.mergedDebug = md ++ chunks.flatMap
          (fun c => if hasData c.2 then c.2.debug.getD [] else []) ∧
        out.chunks.map (fun r => (r.chunk_no, r.used)) =
          rp.map (fun r => (r.chunk_no, r.used)) ++
            chunks.map (fun c => (c.1, hasData c.2)) ∧
        (∀ w ∈ ws, w ∈ out.warnings) ∧
        (∀ c ∈ chunks, chunkWarned c out.warnings) := by
  induction chunks with
  | nil =>
    intro mp md rp ws
    exact ⟨⟨mp, md, rp, ws⟩, rfl, by simp, by simp, by simp,
      fun w hw => hw, by simp⟩
  | cons c rest ih =>
    intro mp md rp ws
    obtain ⟨n, d⟩ := c
    by_cases hmiss : (d.predictions.isNone || d.debug.isNone) = true
    · have hnd : hasData d = false := by
        have h := (Bool.or_eq_true _ _).mp hmiss
        rcases h with h | h
        · simp [hasData, Option.isNone_iff_eq_none.mp h]
        · simp [hasData, Option.isNone_iff_eq_none.mp h]
      obtain ⟨out, hout, hmp, hmd, hch, hws, hrest⟩ :=
        ih mp md (rp ++ [reportMissing n d]) (ws ++ [missingWarning n d])
      refine ⟨out, ?_, ?_, ?_, ?_, ?_, ?_⟩
      · rw [combineGo, if_pos hmiss]
        exact hout
      · rw [hmp]
        simp [hnd]
      · rw [hmd]
        simp [hnd]
      · rw [hch]
        simp [hnd, reportMissing, reportBase]
      · intro w hw
        exact hws w (List.mem_append_left _ hw)
      · intro c hc
        rcases List.mem_cons.mp hc with rfl | hc
        · refine ⟨fun _ => ?_, fun h => ?_, fun s h => ?_⟩
          · exact hws _ (List.mem_append_right _ (List.mem_singleton.mpr rfl))
          · rw [hnd] at h
            cases h
          · rw [hnd] at h
            cases h
        · exact hrest c hc
    · have hp : d.predictions.isSome = true := by
        rcases hv : d.predictions with _ | v
        · exact absurd (by simp [hv]) hmiss
        · rfl
      have hdbg : d.debug.isSome = true := by
        rcases hv : d.debug with _ | v
        · exact absurd (by simp [hv]) hmiss
        · rfl
      have hnd : hasData d = true := by simp [hasData, hp, hdbg]
      have hcmiss : ∀ h : (d.predictions.isNone = true ∨ d.debug.isNone = true),
          missingWarning n d ∈ ([] : List String) := by
        intro h
        rcases h with h | h
        · rw [Option.isSome_iff_ne_none] at hp
          rw [Option.isNone_iff_eq_none] at h
          exact absurd h hp
        · rw [Option.isSome_iff_ne_none] at hdbg
          rw [Option.isNone_iff_eq_none] at h
          exact absurd h hdbg
      rcases hsum : d.summary with _ | summ
      · obtain ⟨out, hout, hmp, hmd, hch, hws, hrest⟩ :=
          ih (mp ++ d.predictions.getD []) (md ++ d.debug.getD [])
            (rp ++ [reportNoSummary n d]) (ws ++ [summaryMissingWarning n])
        refine ⟨out, ?_, ?_, ?_, ?_, ?_, ?_⟩
        · rw [combineGo, if_neg (by simp [hmiss]), hsum]
          exact hout
        · rw [hmp]
          simp [hnd]
        · rw [hmd]
          simp [hnd]
        · rw [hch]
          simp [hnd, reportNoSummary, reportBase]
        · intro w hw
          exact hws w (List.mem_append_left _ hw)
        · intro c hc
          rcases List.mem_cons.mp hc with rfl | hc
          · refine ⟨fun h => absurd (hcmiss h) (List.not_mem_nil _),
              fun _ _ => ?_, fun s' _ h => ?_⟩
            · exact hws _ (List.mem_append_right _ (List.mem_singleton.mpr rfl))
            · rw [hsum] at h
              cases h
          · exact hrest c hc
      · by_cases hmis : (0 ≤ summ.successful_predictions.getD (-1) &&
            summ.successful_predictions.getD (-1) !=
              ((d.predictions.getD []).length : Int)) = true
        · have hmisP : 0 ≤ summ.successful_predictions.getD (-1) ∧
              summ.successful_predictions.getD (-1) ≠
                ((d.predictions.getD []).length : Int) := by
            have := (Bool.and_eq_true _ _).mp hmis
            constructor
            · exact of_decide_eq_true this.1
            · exact bne_iff_ne.mp this.2
          by_cases hint : summ.integrity_ok.getD false = true
          · obtain ⟨out, hout, hmp, hmd, hch, hws, hrest⟩ :=
              ih (mp ++ d.predictions.getD []) (md ++ d.debug.getD [])
                (rp ++ [reportWithSummary n d summ
                  (some (mismatchWarning n
                    (summ.successful_predictions.getD (-1))
                    (d.predictions.getD []).length))])
                (ws ++ [mismatchWarning n
                  (summ.successful_predictions.getD (-1))
                  (d.predictions.getD []).length])
            refine ⟨out, ?_, ?_, ?_, ?_, ?_, ?_⟩
            · rw [combineGo, if_neg (by simp [hmiss]), hsum]
              simp only [hmis, if_pos, hint, Bool.not_true,
                Bool.false_eq_true, if_false]
              exact hout
            · rw [hmp]
              simp [hnd]
            · rw [hmd]
              simp [hnd]
            · rw [hch]
              simp [hnd, reportWithSummary]
            · intro w hw
              exact hws w (List.mem_append_left _ hw)
            · intro c hc
              rcases List.mem_cons.mp hc with rfl | hc
              · refine ⟨fun h => absurd (hcmiss h) (List.not_mem_nil _),
                  fun _ h => ?_, fun s' _ h => ?_⟩
                · rw [hsum] at h
                  cases h
                · rw [hsum] at h
                  injection h with h
                  subst h
                  refine ⟨fun _ => ?_, fun hintf => ?_⟩
                  · exact hws _ (List.mem_append_right _
                      (List.mem_singleton.mpr rfl))
                  · rw [hintf] at hint
                    cases hint
              · exact hrest c hc
          · have hintf : summ.integrity_ok.getD false = false :=
              Bool.eq_false_iff.mpr hint
            obtain ⟨out, hout, hmp, hmd, hch, hws, hrest⟩ :=
              ih (mp ++ d.predictions.getD []) (md ++ d.debug.getD [])
                (rp ++ [reportWithSummary n d summ
                  (some (mismatchWarning n
                    (summ.successful_predictions.getD (-1))
                    (d.predictions.getD []).length))])
                (ws ++ [mismatchWarning n
                  (summ.successful_predictions.getD (-1))
                  (d.predictions.getD []).length] ++ [integrityWarning n])
            refine ⟨out, ?_, ?_, ?_, ?_, ?_, ?_⟩
            · rw [combineGo, if_neg (by simp [hmiss]), hsum]
              simp only [hmis, if_pos, hintf, Bool.not_false, if_true,
                Bool.false_eq_true, if_false]
              exact hout
            · rw [hmp]
              simp [hnd]
            · rw [hmd]
              simp [hnd]
            · rw [hch]
              simp [hnd, reportWithSummary]
            · intro w hw
              exact hws w (List.mem_append_left _ (List.mem_append_left _ hw))
            · intro c hc
              rcases List.mem_cons.mp hc with rfl | hc
              · refine ⟨fun h => absurd (hcmiss h) (List.not_mem_nil _),
                  fun _ h => ?_, fun s' _ h => ?_⟩
                · rw [hsum] at h
                  cases h
                · rw [hsum] at h
                  injection h with h
                  subst h
                  refine ⟨fun _ => ?_, fun _ => ?_⟩
                  · exact hws _ (List.mem_append_left _
                      (List.mem_append_right _ (List.mem_singleton.mpr rfl)))
                  · exact hws _ (List.mem_append_right _
                      (List.mem_singleton.mpr rfl))
              · exact hrest c hc
        · have hmisf : (0 ≤ summ.successful_predictions.getD (-1) &&
              summ.successful_predictions.getD (-1) !=
                ((d.predictions.getD []).length : Int)) = false :=
            Bool.eq_false_iff.mpr hmis
          have hnomis : ¬ (0 ≤ summ.successful_predictions.getD (-1) ∧
              summ.successful_predictions.getD (-1) ≠
                ((d.predictions.getD []).length : Int)) := by
            rintro ⟨h1, h2⟩
            apply hmis
            rw [Bool.and_eq_true]
            exact ⟨decide_eq_true h1, bne_iff_ne.mpr h2⟩
          by_cases hint : summ.integrity_ok.getD false = true
          · obtain ⟨out, hout, hmp, hmd, hch, hws, hrest⟩ :=
              ih (mp ++ d.predictions.getD []) (md ++ d.debug.getD [])
                (rp ++ [reportWithSummary n d summ none]) ws
            refine ⟨out, ?_, ?_, ?_, ?_, ?_, ?_⟩
            · rw [combineGo, if_neg (by simp [hmiss]), hsum]
              simp only [hmisf, Bool.false_eq_true, if_false, hint,
                Bool.not_true]
              exact hout
            · rw [hmp]
              simp [hnd]
            · rw [hmd]
              simp [hnd]
            · rw [hch]
              simp [hnd, reportWithSummary]
            · exact hws
            · intro c hc
              rcases List.mem_cons.mp hc with rfl | hc
              · refine ⟨fun h => absurd (hcmiss h) (List.not_mem_nil _),
                  fun _ h => ?_, fun s' _ h => ?_⟩
                · rw [hsum] at h
                  cases h
                · rw [hsum] at h
                  injection h with h
                  subst h
                  refine ⟨fun hcon => absurd hcon hnomis, fun hintf => ?_⟩
                  rw [hintf] at hint
                  cases hint
              · exact hrest c hc
          · have hintf : summ.integrity_ok.getD false = false :=
              Bool.eq_false_iff.mpr hint
            obtain ⟨out, hout, hmp, hmd, hch, hws, hrest⟩ :=
              ih (mp ++ d.predictions.getD []) (md ++ d.debug.getD [])
                (rp ++ [reportWithSummary n d summ
                  (some (integrityWarning n))])
                (ws ++ [integrityWarning n])
            refine ⟨out, ?_, ?_, ?_, ?_, ?_, ?_⟩
            · rw [combineGo, if_neg (by simp [hmiss]), hsum]
              simp only [hmisf, Bool.false_eq_true, if_false, hintf,
                Bool.not_false, if_true]
              exact hout
            · rw [hmp]
              simp [hnd]
            · rw [hmd]
              simp [hnd]
            · rw [hch]
              simp [hnd, reportWithSummary]
            · intro w hw
              exact hws w (List.mem_append_left _ hw)
            · intro c hc
              rcases List.mem_cons.mp hc with rfl | hc
              · refine ⟨fun h => absurd (hcmiss h) (List.not_mem_nil _),
                  fun _ h => ?_, fun s' _ h => ?_⟩
                · rw [hsum] at h
                  cases h
                · rw [hsum] at h
                  injection h with h
                  subst h
                  refine ⟨fun hcon => absurd hcon hnomis, fun _ => ?_⟩
                  exact hws _ (List.mem_append_right _
                    (List.mem_singleton.mpr rfl))
              · exact hrest c hc

end Combine

namespace Combine

theorem combineGo_strict_abort (chunks : List (Nat × ChunkData)) :
    ∀ (mp md : List String) (rp : List ChunkReport) (ws : List String),
      (∃ c ∈ chunks, chunkIssue c) →
      combineGo true chunks mp md rp ws = .error 2 := by
  induction chunks with
  | nil =>
    intro mp md rp ws h
    obtain ⟨c, hc, _⟩ := h
    cases hc
  | cons c rest ih =>
    intro mp md rp ws hex
    obtain ⟨n, d⟩ := c
    by_cases hmiss : (d.predictions.isNone || d.debug.isNone) = true
    · rw [combineGo, if_pos hmiss]
      rfl
    · have hp : d.predictions.isSome = true := by
        rcases hv : d.predictions with _ | v
        · exact absurd (by simp [hv]) hmiss
        · rfl
      have hdbg : d.debug.isSome = true := by
        rcases hv : d.debug with _ | v
        · exact absurd (by simp [hv]) hmiss
        · rfl
      rcases hsum : d.summary with _ | summ
      · rw [combineGo, if_neg (by simp [hmiss]), hsum]
        rfl
      · by_cases hmis : (0 ≤ summ.successful_predictions.getD (-1) &&
            summ.successful_predictions.getD (-1) !=
              ((d.predictions.getD []).length : Int)) = true
        · rw [combineGo, if_neg (by simp [hmiss]), hsum]
          simp only [hmis, if_pos]
        · have hmisf : (0 ≤ summ.successful_predictions.getD (-1) &&
              summ.successful_predictions.getD (-1) !=
                ((d.predictions.getD []).length : Int)) = false :=
            Bool.eq_false_iff.mpr hmis
          by_cases hint : summ.integrity_ok.getD false = true
          · have hnoissue : ¬ chunkIssue (n, d) := by
              rintro (h | h | h | ⟨s', hs', hbad⟩)
              · rw [Option.isNone_iff_eq_none] at h
                exact (Option.isSome_iff_ne_none.mp hp) h
              · rw [Option.isNone_iff_eq_none] at h
                exact (Option.isSome_iff_ne_none.mp hdbg) h
              · simp only at h
                rw [hsum] at h
                cases h
              · simp only at hs'
                rw [hsum] at hs'
                injection hs' with hs'
                subst hs'
                rcases hbad with hbadint | ⟨v, hv, hv0, hvne⟩
                · rw [hbadint] at hint
                  cases hint
                · apply hmis
                  rw [Bool.and_eq_true]
                  have hvd : summ.successful_predictions.getD (-1) = v := by
                    rw [hv]
                    rfl
                  exact ⟨decide_eq_true (by rw [hvd]; exact hv0),
                    bne_iff_ne.mpr (by rw [hvd]; exact hvne)⟩
            obtain ⟨c', hc', hcIssue⟩ := hex
            rcases List.mem_cons.mp hc' with rfl | hc'
            · exact absurd hcIssue hnoissue
            · rw [combineGo, if_neg (by simp [hmiss]), hsum]
              simp only [hmisf, Bool.false_eq_true, if_false, hint,
                Bool.not_true]
              exact ih _ _ _ _ ⟨c', hc', hcIssue⟩
          · have hintf : summ.integrity_ok.getD false = false :=
              Bool.eq_false_iff.mpr hint
            rw [combineGo, if_neg (by simp [hmiss]), hsum]
            simp only [hmisf, Bool.false_eq_true, if_false, hintf,
              Bool.not_false, if_true]

end Combine

/-- C9: in strict mode, combine aborts with the non-zero outcome 2 — before
any combined output file is written (the abort is `Except.error`, under
which no `CombineOut` exists) — whenever any discovered chunk is missing
`predictions.txt` or `predictions_debug.jsonl`, is missing its
`summary.json`, reports `integrity_ok=false`, or records a nonnegative
`successful_predictions` disagreeing with the actual prediction line count;
in lenient mode combine always completes and records each such issue (the
summary cross-checks applying to chunks whose data files exist, as the code
checks them) in the report's `warnings`. -/
theorem strict_combine_aborts_lenient_warns
    (chunks : List (Nat × Combine.ChunkData)) :
    ((∃ c ∈ chunks, Combine.chunkIssue c) →
      Combine.combine true chunks = .error 2) ∧
    (∃ out, Combine.combine false chunks = .ok out ∧
      ∀ c ∈ chunks, Combine.chunkWarned c out.warnings) := by
  constructor
  · intro hex
    exact Combine.combineGo_strict_abort chunks [] [] [] [] hex
  · obtain ⟨out, hout, _, _, _, _, hwarn⟩ :=
      Combine.combineGo_lenient chunks [] [] [] []
    exact ⟨out, hout, hwarn⟩

/-- Witness for C9: a single chunk missing `predictions.txt` makes strict
combine abort with outcome 2. -/
theorem strict_combine_aborts_lenient_warns_witness :
    (∃ c ∈ [((1 : Nat), (⟨none, some ["d1"], none⟩ : Combine.ChunkData))],
      Combine.chunkIssue c) ∧
    Combine.combine true [((1 : Nat), ⟨none, some ["d1"], none⟩)] =
      .error 2 :=
  have hex : ∃ c ∈ [((1 : Nat),
      (⟨none, some ["d1"], none⟩ : Combine.ChunkData))],
      Combine.chunkIssue c :=
    ⟨(1, ⟨none, some ["d1"], none⟩), List.mem_singleton.mpr rfl, Or.inl rfl⟩
  ⟨hex, (strict_combine_aborts_lenient_warns _).1 hex⟩

/-- C10: in lenient (non-strict) mode, a chunk whose `predictions.txt` and
`predictions_debug.jsonl` both exist is always fully merged into the
combined outputs and marked `used=true` in its report — even when its
`summary.json` is missing, reports `integrity_ok=false`, or its recorded
`successful_predictions` disagrees with the actual line count — and only
chunks missing one of the two data artifacts are skipped entirely. -/
theorem lenient_merges_every_chunk_with_data
    (chunks : List (Nat × Combine.ChunkData)) :
    ∃ out, Combine.combine false chunks = .ok out ∧
      out.mergedPred = chunks.flatMap
        (fun c => if Combine.hasData c.2 then c.2.predictions.getD []
          else []) ∧
      out.mergedDebug = chunks.flatMap
        (fun c => if Combine.hasData c.2 then c.2.debug.getD [] else []) ∧
      out.chunks.map (fun r => (r.chunk_no, r.used)) =
        chunks.map (fun c => (c.1, Combine.hasData c.2)) ∧
      (∀ c ∈ chunks, Combine.hasData c.2 =
        (c.2.predictions.isSome && c.2.debug.isSome)) := by
  obtain ⟨out, hout, hmp, hmd, hch, _, _⟩ :=
    Combine.combineGo_lenient chunks [] [] [] []
  exact ⟨out, hout, by simpa using hmp, by simpa using hmd,
    by simpa using hch, fun c _ => rfl⟩

/-- Witness for C10 at a concrete mix: a chunk with data but no summary, a
chunk with integrity_ok=false, and a chunk missing its debug file. -/
theorem lenient_merges_every_chunk_with_data_witness :
    ∃ out, Combine.combine false
        [(1, ⟨some ["A"], some ["dA"], none⟩),
         (2, ⟨some ["B"], some ["dB"], some ⟨some 1, some 1, some false⟩⟩),
         (3, ⟨some ["C"], none, some ⟨some 1, some 1, some true⟩⟩)] =
        .ok out ∧
      out.mergedPred =
        [(1, (⟨some ["A"], some ["dA"], none⟩ : Combine.ChunkData)),
         (2, ⟨some ["B"], some ["dB"], some ⟨some 1, some 1, some false⟩⟩),
         (3, ⟨some ["C"], none, some ⟨some 1, some 1, some true⟩⟩)].flatMap
          (fun c => if Combine.hasData c.2 then c.2.predictions.getD []
            else []) ∧
      out.mergedDebug =
        [(1, (⟨some ["A"], some ["dA"], none⟩ : Combine.ChunkData)),
         (2, ⟨some ["B"], some ["dB"], some ⟨some 1, some 1, some false⟩⟩),
         (3, ⟨some ["C"], none, some ⟨some 1, some 1, some true⟩⟩)].flatMap
          (fun c => if Combine.hasData c.2 then c.2.debug.getD [] else []) ∧
      out.chunks.map (fun r => (r.chunk_no, r.used)) =
        [(1, (⟨some ["A"], some ["dA"], none⟩ : Combine.ChunkData)),
         (2, ⟨some ["B"], some ["dB"], some ⟨some 1, some 1, some false⟩⟩),
         (3, ⟨some ["C"], none, some ⟨some 1, some 1, some true⟩⟩)].map
          (fun c => (c.1, Combine.hasData c.2)) ∧
      (∀ c ∈ [(1, (⟨some ["A"], some ["dA"], none⟩ : Combine.ChunkData)),
         (2, ⟨some ["B"], some ["dB"], some ⟨some 1, some 1, some false⟩⟩),
         (3, ⟨some ["C"], none, some ⟨some 1, some 1, some true⟩⟩)],
        Combine.hasData c.2 =
          (c.2.predictions.isSome && c.2.debug.isSome)) :=
  lenient_merges_every_chunk_with_data
    [(1, ⟨some ["A"], some ["dA"], none⟩),
     (2, ⟨some ["B"], some ["dB"], some ⟨some 1, some 1, some false⟩⟩),
     (3, ⟨some ["C"], none, some ⟨some 1, some 1, some true⟩⟩)]
